import Mathlib

/-!
Verification of the racing-weather derivation pipeline
(`src/app/api/peek/route.ts`).

Embedding conventions:

* JavaScript numbers are modelled two ways.  The purely rational part of
  the pipeline (`pdValueInHg`, the bisection dew-point inversion,
  `humidityGrains`, `fToK`, `adrPercent`) is embedded generically over a
  `LinearOrderedField K`, so the same definitions serve both `ℚ`
  (computable, used to evaluate concrete inputs) and `ℝ` (used by the
  full-pipeline model).  Finite-value arithmetic is exact field
  arithmetic, the usual idealisation of IEEE doubles.
* The full pipeline `computeRacingWeather` also produces the IEEE
  special values `Infinity`, `-Infinity` and `NaN` (division by zero,
  fractional powers of negative bases).  For it we use `XR`, real
  numbers extended with the three special values, with arithmetic
  following the IEEE-754 rules that JavaScript numbers obey (the real
  zero plays the role of IEEE `+0`, which is what `P - e` produces when
  `P = e`).  `Math.pow` with the fixed positive non-integer exponents
  used by the source is modelled by `XR.powPos`; with the literal
  natural exponents `3` and `2` by `XR.powNat`.
-/

section Scalar

variable {K : Type} [LinearOrderedField K]

/-- Saturation vapor pressure polynomial, from the source:
`0.000002923426 * Math.pow(tempF, 3) - 0.0002235652 * Math.pow(tempF, 2)
 + 0.01366344 * tempF - 0.126149`. -/
def pdValueInHg (tempF : K) : K :=
  0.000002923426 * tempF ^ 3 - 0.0002235652 * tempF ^ 2 + 0.01366344 * tempF - 0.126149

/-- The bisection loop of `dewPointFFromVaporPressure`: `n` iterations of
"if `test mid` then the upper half becomes `mid` else the lower half
becomes `mid`", starting from the pair `(lo, hi)`. -/
def bisect (test : K → Bool) : Nat → K × K → K × K
  | 0, s => s
  | n + 1, s =>
    let mid := (s.1 + s.2) / 2
    if test mid then bisect test n (s.1, mid) else bisect test n (mid, s.2)

/-- Dew point by inversion, from the source: 80 bisection iterations on
the fixed bracket `[-60, 140]`, replacing the upper bound by `mid` when
`pdValueInHg mid > eInHg` and the lower bound otherwise, returning the
midpoint of the final bracket. -/
def dewPointFFromVaporPressure (eInHg : K) : K :=
  let s := bisect (fun mid => decide (pdValueInHg mid > eInHg)) 80 (-60, 140)
  (s.1 + s.2) / 2

/-- One bisection step of the dew-point inversion, written as a plain
state transformer on the bracket pair (used to state that the loop is
exactly 80 iterations of this step). -/
def dpStep (eInHg : K) (p : K × K) : K × K :=
  if pdValueInHg ((p.1 + p.2) / 2) > eInHg then (p.1, (p.1 + p.2) / 2)
  else ((p.1 + p.2) / 2, p.2)

/-- Humidity grains, from the source:
`w = 0.62199 * (e / (P - e)); return 7000 * w`. -/
def humidityGrains (P e : K) : K :=
  7000 * (0.62199 * (e / (P - e)))

/-- Fahrenheit to Kelvin, from the source: `(f - 32) * (5 / 9) + 273.15`. -/
def fToK (f : K) : K :=
  (f - 32) * (5 / 9) + 273.15

/-- Standard pressure constant from the source. -/
def P_STD : K := 29.92

/-- Standard temperature constant from the source. -/
def T_STD_F : K := 60

/-- Air density ratio percentage, from the source:
`((P - e) / T) / (P_STD / Tstd) * 100` with `T`, `Tstd` in Kelvin. -/
def adrPercent (tempF P e : K) : K :=
  (P - e) / fToK tempF / (P_STD / fToK T_STD_F) * 100

end Scalar

/-- JavaScript numbers for the full pipeline: real numbers extended with
the IEEE special values `Infinity`, `-Infinity` and `NaN`.  Finite
values are exact reals (the usual idealisation of doubles); the real
zero stands for IEEE `+0`. -/
inductive XR : Type where
  | num : ℝ → XR
  | pinf : XR
  | ninf : XR
  | nan : XR

namespace XR

/-- A value is finite when it is a real number (JavaScript
`Number.isFinite`). -/
def isFinite : XR → Prop
  | num _ => True
  | _ => False

/-- IEEE addition on JavaScript numbers. -/
def add : XR → XR → XR
  | nan, _ => nan
  | _, nan => nan
  | num a, num b => num (a + b)
  | pinf, ninf => nan
  | ninf, pinf => nan
  | pinf, _ => pinf
  | _, pinf => pinf
  | ninf, _ => ninf
  | _, ninf => ninf

/-- IEEE subtraction on JavaScript numbers. -/
def sub : XR → XR → XR
  | nan, _ => nan
  | _, nan => nan
  | num a, num b => num (a - b)
  | pinf, pinf => nan
  | ninf, ninf => nan
  | pinf, _ => pinf
  | ninf, _ => ninf
  | _, pinf => ninf
  | _, ninf => pinf

/-- IEEE multiplication on JavaScript numbers. -/
noncomputable def mul : XR → XR → XR
  | nan, _ => nan
  | _, nan => nan
  | num a, num b => num (a * b)
  | num a, pinf => if a = 0 then nan else if 0 < a then pinf else ninf
  | pinf, num b => if b = 0 then nan else if 0 < b then pinf else ninf
  | num a, ninf => if a = 0 then nan else if 0 < a then ninf else pinf
  | ninf, num b => if b = 0 then nan else if 0 < b then ninf else pinf
  | pinf, pinf => pinf
  | pinf, ninf => ninf
  | ninf, pinf => ninf
  | ninf, ninf => pinf

/-- IEEE division on JavaScript numbers; a finite value divided by zero
gives a signed infinity (the real zero stands for IEEE `+0`), and `0/0`
gives `NaN`. -/
noncomputable def div : XR → XR → XR
  | nan, _ => nan
  | _, nan => nan
  | num a, num b =>
    if b = 0 then (if a = 0 then nan else if 0 < a then pinf else ninf)
    else num (a / b)
  | num _, pinf => num 0
  | num _, ninf => num 0
  | pinf, num b => if 0 ≤ b then pinf else ninf
  | ninf, num b => if 0 ≤ b then ninf else pinf
  | pinf, pinf => nan
  | pinf, ninf => nan
  | ninf, pinf => nan
  | ninf, ninf => nan

/-- The semantics of `Math.pow` with a literal natural exponent (the
source uses `Math.pow(tempF, 3)` and `Math.pow(tempF, 2)`). -/
noncomputable def powNat : XR → Nat → XR
  | _, 0 => num 1
  | nan, _ => nan
  | num a, n => num (a ^ n)
  | pinf, _ => pinf
  | ninf, n => if n % 2 = 1 then ninf else pinf

/-- The semantics of `Math.pow` with a fixed positive non-integer
exponent (the source uses the exponents `0.50317` and `1 / exp`): a
negative base gives `NaN`, zero gives zero, a positive base gives the
real power. -/
noncomputable def powPos : XR → ℝ → XR
  | nan, _ => nan
  | pinf, _ => pinf
  | ninf, _ => pinf
  | num a, p => if a < 0 then nan else if a = 0 then num 0 else num (a ^ p)

/-- JavaScript `>` as a boolean: any comparison with `NaN` is false. -/
noncomputable def gtb : XR → XR → Bool
  | nan, _ => false
  | _, nan => false
  | num a, num b => decide (b < a)
  | pinf, pinf => false
  | pinf, _ => true
  | _, pinf => false
  | ninf, _ => false
  | _, ninf => true

/-- JavaScript `<` as a proposition: any comparison with `NaN` is false. -/
def Lt : XR → XR → Prop
  | nan, _ => False
  | _, nan => False
  | num a, num b => a < b
  | pinf, _ => False
  | ninf, ninf => False
  | ninf, _ => True
  | num _, pinf => True
  | num _, ninf => False

/-- JavaScript `<=` as a proposition: any comparison with `NaN` is false. -/
def Le : XR → XR → Prop
  | nan, _ => False
  | _, nan => False
  | num a, num b => a ≤ b
  | ninf, _ => True
  | _, pinf => True
  | pinf, _ => False
  | num _, ninf => False

end XR

namespace JS

/-- The `Inputs` record type of the source. -/
structure Inputs where
  tempF : XR
  humidityPct : XR
  absPressureInHg : XR

/-- The `RawOutput` record type of the source. -/
structure RawOutput where
  tempF : XR
  humidityPct : XR
  absPressureInHg : XR
  pdValue : XR
  vaporPressureInHg : XR
  dewPointF : XR
  humidityGrains : XR
  adrPct : XR
  densityAltFt : XR
  tf : XR
  hf : XR
  bf : XR
  correction : XR

/-- The PD polynomial of the source, on JavaScript numbers. -/
noncomputable def pdValueInHg (tempF : XR) : XR :=
  XR.sub
    (XR.add
      (XR.sub (XR.mul (XR.num 0.000002923426) (XR.powNat tempF 3))
        (XR.mul (XR.num 0.0002235652) (XR.powNat tempF 2)))
      (XR.mul (XR.num 0.01366344) tempF))
    (XR.num 0.126149)

/-- The dew-point inversion of the source, on JavaScript numbers.  The
bracket variables `lo`, `hi` start at the finite literals `-60`, `140`
and every update assigns a midpoint, so they stay finite reals; only the
comparison against the target `eInHg` sees a possibly non-finite value,
through JavaScript `>` (`XR.gtb`). -/
noncomputable def dewPointFFromVaporPressure (eInHg : XR) : XR :=
  let s := bisect (fun mid => XR.gtb (pdValueInHg (XR.num mid)) eInHg) 80 ((-60 : ℝ), 140)
  XR.num ((s.1 + s.2) / 2)

/-- Humidity grains of the source, on JavaScript numbers. -/
noncomputable def humidityGrains (P e : XR) : XR :=
  XR.mul (XR.num 7000) (XR.mul (XR.num 0.62199) (XR.div e (XR.sub P e)))

/-- Fahrenheit to Kelvin of the source, on JavaScript numbers. -/
noncomputable def fToK (f : XR) : XR :=
  XR.add (XR.mul (XR.sub f (XR.num 32)) (XR.div (XR.num 5) (XR.num 9))) (XR.num 273.15)

/-- The `P_STD` module constant of the source. -/
noncomputable def P_STD : XR := XR.num 29.92

/-- The `T_STD_F` module constant of the source. -/
noncomputable def T_STD_F : XR := XR.num 60

/-- The ADR percentage of the source, on JavaScript numbers. -/
noncomputable def adrPercent (tempF P e : XR) : XR :=
  XR.mul (XR.div (XR.div (XR.sub P e) (fToK tempF)) (XR.div P_STD (fToK T_STD_F))) (XR.num 100)

/-- The `DA_A` calibration constant of the source. -/
noncomputable def DA_A : ℝ := 0.9877786024779986

/-- The `DA_B` calibration constant of the source. -/
noncomputable def DA_B : ℝ := 15.819058349071335

/-- Density altitude of the source, on JavaScript numbers.  The local
physical constants `T0`, `L`, `g`, `R` and the derived exponent are
plain finite numbers and are kept as reals. -/
noncomputable def densityAltitudeFt (adrPct : XR) : XR :=
  let ratio := XR.div adrPct (XR.num 100)
  let T0 : ℝ := 288.15
  let L : ℝ := 0.0065
  let g : ℝ := 9.80665
  let R : ℝ := 287.058
  let ex : ℝ := g / (R * L) - 1
  let h_m := XR.mul (XR.num (T0 / L)) (XR.sub (XR.num 1) (XR.powPos ratio (1 / ex)))
  XR.add (XR.mul (XR.num DA_A) (XR.mul h_m (XR.num 3.28084))) (XR.num DA_B)

/-- The record returned by `standardCorrection` in the source. -/
structure Correction where
  tf : XR
  hf : XR
  bf : XR
  correction : XR

/-- The standard correction of the source, on JavaScript numbers. -/
noncomputable def standardCorrection (tempF P e : XR) : Correction :=
  let tf := XR.powPos (XR.div (XR.add (XR.num 459.7) tempF) (XR.num 519.7)) 0.50317
  let hf := XR.div P (XR.sub P e)
  let bf := XR.div (XR.num 29.92) P
  { tf := tf, hf := hf, bf := bf, correction := XR.mul (XR.mul tf hf) bf }

/-- The main compute function of the source. -/
noncomputable def computeRacingWeather (x : Inputs) : RawOutput :=
  let pdValue := pdValueInHg x.tempF
  let vaporPressureInHg := XR.mul pdValue (XR.div x.humidityPct (XR.num 100))
  let dewPointF := dewPointFFromVaporPressure vaporPressureInHg
  let humidityGrainsVal := humidityGrains x.absPressureInHg vaporPressureInHg
  let adrPct := adrPercent x.tempF x.absPressureInHg vaporPressureInHg
  let densityAltFt := densityAltitudeFt adrPct
  let c := standardCorrection x.tempF x.absPressureInHg vaporPressureInHg
  { tempF := x.tempF
    humidityPct := x.humidityPct
    absPressureInHg := x.absPressureInHg
    pdValue := pdValue
    vaporPressureInHg := vaporPressureInHg
    dewPointF := dewPointF
    humidityGrains := humidityGrainsVal
    adrPct := adrPct
    densityAltFt := densityAltFt
    tf := c.tf
    hf := c.hf
    bf := c.bf
    correction := c.correction }

end JS

section ScalarFacts

variable {K : Type} [LinearOrderedField K]

theorem pd_lt_pd (T1 T2 : K) (h : T1 < T2) : pdValueInHg T1 < pdValueInHg T2 := by
  have h1 : (0 : K) < T2 - T1 := sub_pos.2 h
  have h2 : (0 : K) ≤ (T2 - T1) * (3 * 0.000002923426 * (T1 + T2) - 2 * 0.0002235652) ^ 2 :=
    mul_nonneg h1.le (sq_nonneg _)
  have h3 : (0 : K) ≤ (T2 - T1) * (T1 - T2) ^ 2 := mul_nonneg h1.le (sq_nonneg _)
  simp only [pdValueInHg]
  nlinarith [h1, h2, h3]

theorem pd_le_pd (T1 T2 : K) (h : T1 ≤ T2) : pdValueInHg T1 ≤ pdValueInHg T2 := by
  rcases eq_or_lt_of_le h with rfl | hlt
  · exact le_refl _
  · exact (pd_lt_pd T1 T2 hlt).le

theorem bisect_bounds (test : K → Bool) (n : ℕ) :
    ∀ lo hi : K, lo ≤ hi →
      lo ≤ (bisect test n (lo, hi)).1 ∧
      (bisect test n (lo, hi)).1 ≤ (bisect test n (lo, hi)).2 ∧
      (bisect test n (lo, hi)).2 ≤ hi ∧
      (bisect test n (lo, hi)).2 - (bisect test n (lo, hi)).1 = (hi - lo) / 2 ^ n := by
  induction n with
  | zero =>
    intro lo hi h
    simp [bisect, h]
  | succ n ih =>
    intro lo hi h
    have hm1 : lo ≤ (lo + hi) / 2 := by linarith
    have hm2 : (lo + hi) / 2 ≤ hi := by linarith
    have hw : (2 : K) ^ (n + 1) = 2 * 2 ^ n := by ring
    simp only [bisect]
    split
    · have b := ih lo ((lo + hi) / 2) hm1
      refine ⟨b.1, b.2.1, le_trans b.2.2.1 hm2, ?_⟩
      rw [b.2.2.2, hw]
      field_simp
      ring
    · have b := ih ((lo + hi) / 2) hi hm2
      refine ⟨le_trans hm1 b.1, b.2.1, b.2.2.1, ?_⟩
      rw [b.2.2.2, hw]
      field_simp
      ring

theorem bisect_pd_inv (eInHg : K) (n : ℕ) :
    ∀ lo hi : K, pdValueInHg lo ≤ eInHg → eInHg < pdValueInHg hi →
      pdValueInHg (bisect (fun m => decide (pdValueInHg m > eInHg)) n (lo, hi)).1 ≤ eInHg ∧
      eInHg < pdValueInHg (bisect (fun m => decide (pdValueInHg m > eInHg)) n (lo, hi)).2 := by
  induction n with
  | zero =>
    intro lo hi h1 h2
    simpa [bisect] using ⟨h1, h2⟩
  | succ n ih =>
    intro lo hi h1 h2
    simp only [bisect, decide_eq_true_eq]
    by_cases hm : pdValueInHg ((lo + hi) / 2) > eInHg
    · rw [if_pos hm]
      exact ih lo _ h1 hm
    · rw [if_neg hm]
      exact ih _ hi (not_lt.1 hm) h2

theorem bisect_lo_pinned (eInHg : K) (he : eInHg < pdValueInHg (-60)) (n : ℕ) :
    ∀ hi : K, -60 < hi →
      (bisect (fun m => decide (pdValueInHg m > eInHg)) n (-60, hi)).1 = -60 := by
  induction n with
  | zero =>
    intro hi _
    simp [bisect]
  | succ n ih =>
    intro hi h
    have hm : (-60 : K) < (-60 + hi) / 2 := by linarith
    have htest : pdValueInHg ((-60 + hi) / 2) > eInHg := lt_trans he (pd_lt_pd _ _ hm)
    simp only [bisect, decide_eq_true_eq]
    rw [if_pos htest]
    exact ih _ hm

theorem bisect_hi_pinned (eInHg : K) (he : pdValueInHg 140 < eInHg) (n : ℕ) :
    ∀ lo : K, lo < 140 →
      (bisect (fun m => decide (pdValueInHg m > eInHg)) n (lo, 140)).2 = 140 := by
  induction n with
  | zero =>
    intro lo _
    simp [bisect]
  | succ n ih =>
    intro lo h
    have hm : (lo + 140) / 2 < (140 : K) := by linarith
    have htest : ¬ pdValueInHg ((lo + 140) / 2) > eInHg :=
      not_lt.2 (le_of_lt (lt_trans (pd_lt_pd _ _ hm) he))
    simp only [bisect, decide_eq_true_eq]
    rw [if_neg htest]
    exact ih _ hm

theorem bisect_eq_iterate (eInHg : K) (n : ℕ) :
    ∀ s : K × K,
      bisect (fun m => decide (pdValueInHg m > eInHg)) n s = (dpStep eInHg)^[n] s := by
  induction n with
  | zero =>
    intro s
    simp [bisect]
  | succ n ih =>
    intro s
    rw [Function.iterate_succ_apply]
    simp only [bisect, decide_eq_true_eq, dpStep]
    by_cases hm : pdValueInHg ((s.1 + s.2) / 2) > eInHg
    · rw [if_pos hm, if_pos hm, ih]
    · rw [if_neg hm, if_neg hm, ih]

theorem bisect_pair_mono (e1 e2 : K) (he : e1 ≤ e2) (n : ℕ) :
    ∀ lo hi : K, lo ≤ hi →
      (bisect (fun m => decide (pdValueInHg m > e1)) n (lo, hi) =
        bisect (fun m => decide (pdValueInHg m > e2)) n (lo, hi)) ∨
      ((bisect (fun m => decide (pdValueInHg m > e1)) n (lo, hi)).2 ≤
        (bisect (fun m => decide (pdValueInHg m > e2)) n (lo, hi)).1) := by
  induction n with
  | zero =>
    intro lo hi _
    exact Or.inl rfl
  | succ n ih =>
    intro lo hi h
    have hm1 : lo ≤ (lo + hi) / 2 := by linarith
    have hm2 : (lo + hi) / 2 ≤ hi := by linarith
    simp only [bisect, decide_eq_true_eq]
    by_cases hb : pdValueInHg ((lo + hi) / 2) > e2
    · by_cases ha : pdValueInHg ((lo + hi) / 2) > e1
      · rw [if_pos ha, if_pos hb]
        exact ih lo _ hm1
      · exact absurd hb (not_lt.2 (le_trans (not_lt.1 ha) he))
    · by_cases ha : pdValueInHg ((lo + hi) / 2) > e1
      · rw [if_pos ha, if_neg hb]
        right
        have b1 := bisect_bounds (fun m => decide (pdValueInHg m > e1)) n lo ((lo + hi) / 2) hm1
        have b2 := bisect_bounds (fun m => decide (pdValueInHg m > e2)) n ((lo + hi) / 2) hi hm2
        exact le_trans b1.2.2.1 b2.1
      · rw [if_neg ha, if_neg hb]
        exact ih _ hi hm2

theorem dewPoint_mono (e1 e2 : K) (he : e1 ≤ e2) :
    dewPointFFromVaporPressure e1 ≤ dewPointFFromVaporPressure e2 := by
  have h : (-60 : K) ≤ 140 := by norm_num
  simp only [dewPointFFromVaporPressure]
  rcases bisect_pair_mono e1 e2 he 80 (-60) 140 h with heq | hle
  · rw [heq]
  · have b1 := bisect_bounds (fun m => decide (pdValueInHg m > e1)) 80 (-60) 140 h
    have b2 := bisect_bounds (fun m => decide (pdValueInHg m > e2)) 80 (-60) 140 h
    linarith [b1.2.1, b2.2.1]

theorem dewPoint_roundtrip_core (T : K) (h1 : -60 < T) (h2 : T < 140) :
    |dewPointFFromVaporPressure (pdValueInHg T) - T| ≤ 1 / 1000000 := by
  have h : (-60 : K) ≤ 140 := by norm_num
  have hinv := bisect_pd_inv (pdValueInHg T) 80 (-60) 140
    (pd_lt_pd (-60) T h1).le (pd_lt_pd T 140 h2)
  have hb := bisect_bounds (fun m => decide (pdValueInHg m > pdValueInHg T)) 80 (-60) 140 h
  set s := bisect (fun m => decide (pdValueInHg m > pdValueInHg T)) 80 ((-60 : K), 140) with hs
  have hlo : s.1 ≤ T := by
    by_contra hcon
    exact absurd hinv.1 (not_le.2 (pd_lt_pd T s.1 (not_le.1 hcon)))
  have hhi : T < s.2 := by
    by_contra hcon
    exact absurd hinv.2 (not_lt.2 (pd_le_pd s.2 T (not_lt.1 hcon)))
  have hw : s.2 - s.1 = 200 / 2 ^ 80 := by
    rw [hb.2.2.2]
    norm_num
  have hsmall : (200 : K) / 2 ^ 80 / 2 ≤ 1 / 1000000 := by
    rw [div_le_div_iff₀ (by positivity) (by norm_num)]
    norm_num
  simp only [dewPointFFromVaporPressure, ← hs]
  rw [abs_le]
  constructor
  · linarith
  · linarith

end ScalarFacts

theorem XR.add_num (a b : ℝ) : XR.add (XR.num a) (XR.num b) = XR.num (a + b) := rfl

theorem XR.sub_num (a b : ℝ) : XR.sub (XR.num a) (XR.num b) = XR.num (a - b) := rfl

theorem XR.mul_num (a b : ℝ) : XR.mul (XR.num a) (XR.num b) = XR.num (a * b) := rfl

theorem XR.powNat_num3 (a : ℝ) : XR.powNat (XR.num a) 3 = XR.num (a ^ 3) := rfl

theorem XR.powNat_num2 (a : ℝ) : XR.powNat (XR.num a) 2 = XR.num (a ^ 2) := rfl

theorem XR.div_num (a b : ℝ) (h : b ≠ 0) : XR.div (XR.num a) (XR.num b) = XR.num (a / b) := by
  simp [XR.div, h]

theorem XR.div_zero_pos (a : ℝ) (h : 0 < a) : XR.div (XR.num a) (XR.num 0) = XR.pinf := by
  simp [XR.div, h.ne', h]

theorem XR.div_zero_neg (a : ℝ) (h : a < 0) : XR.div (XR.num a) (XR.num 0) = XR.ninf := by
  simp [XR.div, h.ne, h.not_lt]

theorem XR.div_zero_zero : XR.div (XR.num 0) (XR.num 0) = XR.nan := by
  simp [XR.div]

theorem XR.mul_num_pinf (a : ℝ) (h : 0 < a) : XR.mul (XR.num a) XR.pinf = XR.pinf := by
  simp [XR.mul, h.ne', h]

theorem XR.mul_num_ninf (a : ℝ) (h : 0 < a) : XR.mul (XR.num a) XR.ninf = XR.ninf := by
  simp [XR.mul, h.ne', h]

theorem XR.mul_num_nan (a : ℝ) : XR.mul (XR.num a) XR.nan = XR.nan := rfl

theorem XR.powPos_num_neg (a p : ℝ) (h : a < 0) : XR.powPos (XR.num a) p = XR.nan := by
  simp [XR.powPos, h]

theorem XR.gtb_num (a b : ℝ) : XR.gtb (XR.num a) (XR.num b) = decide (b < a) := rfl

theorem XR.lt_num (a b : ℝ) : XR.Lt (XR.num a) (XR.num b) ↔ a < b := Iff.rfl

theorem XR.le_num (a b : ℝ) : XR.Le (XR.num a) (XR.num b) ↔ a ≤ b := Iff.rfl

theorem XR.isFinite_num (a : ℝ) : XR.isFinite (XR.num a) := trivial

theorem XR.not_isFinite_pinf : ¬ XR.isFinite XR.pinf := by
  simp [XR.isFinite]

theorem XR.not_isFinite_ninf : ¬ XR.isFinite XR.ninf := by
  simp [XR.isFinite]

theorem XR.not_isFinite_nan : ¬ XR.isFinite XR.nan := by
  simp [XR.isFinite]

theorem pdX_num (t : ℝ) : JS.pdValueInHg (XR.num t) = XR.num (pdValueInHg t) := rfl

theorem dewX_num (r : ℝ) :
    JS.dewPointFFromVaporPressure (XR.num r) = XR.num (dewPointFFromVaporPressure r) := by
  have htest : (fun mid : ℝ => XR.gtb (JS.pdValueInHg (XR.num mid)) (XR.num r)) =
      (fun mid : ℝ => decide (pdValueInHg mid > r)) := by
    funext mid
    rw [pdX_num, XR.gtb_num, decide_eq_decide]
  simp only [JS.dewPointFFromVaporPressure, dewPointFFromVaporPressure, htest]

theorem computeX_pdValue (t h P : ℝ) :
    (JS.computeRacingWeather ⟨XR.num t, XR.num h, XR.num P⟩).pdValue = XR.num (pdValueInHg t) := by
  simp only [JS.computeRacingWeather, pdX_num]

theorem computeX_vapor (t h P : ℝ) :
    (JS.computeRacingWeather ⟨XR.num t, XR.num h, XR.num P⟩).vaporPressureInHg =
      XR.num (pdValueInHg t * (h / 100)) := by
  simp only [JS.computeRacingWeather, pdX_num]
  rw [XR.div_num h 100 (by norm_num), XR.mul_num]

theorem computeX_dew (t h P : ℝ) :
    (JS.computeRacingWeather ⟨XR.num t, XR.num h, XR.num P⟩).dewPointF =
      XR.num (dewPointFFromVaporPressure (pdValueInHg t * (h / 100))) := by
  simp only [JS.computeRacingWeather, pdX_num]
  rw [XR.div_num h 100 (by norm_num), XR.mul_num, dewX_num]

theorem computeX_grains (t h P : ℝ) :
    (JS.computeRacingWeather ⟨XR.num t, XR.num h, XR.num P⟩).humidityGrains =
      JS.humidityGrains (XR.num P) (XR.num (pdValueInHg t * (h / 100))) := by
  simp only [JS.computeRacingWeather, pdX_num]
  rw [XR.div_num h 100 (by norm_num), XR.mul_num]

theorem computeX_hf (t h P : ℝ) :
    (JS.computeRacingWeather ⟨XR.num t, XR.num h, XR.num P⟩).hf =
      XR.div (XR.num P) (XR.sub (XR.num P) (XR.num (pdValueInHg t * (h / 100)))) := by
  simp only [JS.computeRacingWeather, JS.standardCorrection, pdX_num]
  rw [XR.div_num h 100 (by norm_num), XR.mul_num]

theorem computeX_tf (t h P : ℝ) :
    (JS.computeRacingWeather ⟨XR.num t, XR.num h, XR.num P⟩).tf =
      XR.powPos (XR.num ((459.7 + t) / 519.7)) 0.50317 := by
  simp only [JS.computeRacingWeather, JS.standardCorrection]
  rw [XR.add_num, XR.div_num _ 519.7 (by norm_num)]

theorem grainsX_num (P e : ℝ) (h : P - e ≠ 0) :
    JS.humidityGrains (XR.num P) (XR.num e) = XR.num (humidityGrains P e) := by
  simp only [JS.humidityGrains, humidityGrains]
  rw [XR.sub_num, XR.div_num _ _ h, XR.mul_num, XR.mul_num]

theorem grainsX_degenerate_pos (P : ℝ) (h : 0 < P) :
    JS.humidityGrains (XR.num P) (XR.num P) = XR.pinf := by
  simp only [JS.humidityGrains]
  rw [XR.sub_num, sub_self, XR.div_zero_pos P h,
    XR.mul_num_pinf _ (by norm_num), XR.mul_num_pinf _ (by norm_num)]

theorem grainsX_degenerate_neg (P : ℝ) (h : P < 0) :
    JS.humidityGrains (XR.num P) (XR.num P) = XR.ninf := by
  simp only [JS.humidityGrains]
  rw [XR.sub_num, sub_self, XR.div_zero_neg P h,
    XR.mul_num_ninf _ (by norm_num), XR.mul_num_ninf _ (by norm_num)]

theorem grainsX_degenerate_zero :
    JS.humidityGrains (XR.num 0) (XR.num 0) = XR.nan := by
  simp only [JS.humidityGrains]
  rw [XR.sub_num, sub_self, XR.div_zero_zero, XR.mul_num_nan, XR.mul_num_nan]

theorem dewPoint_bracket {K : Type} [LinearOrderedField K] (e : K) :
    -60 ≤ dewPointFFromVaporPressure e ∧ dewPointFFromVaporPressure e ≤ 140 := by
  have hb := bisect_bounds (fun m => decide (pdValueInHg m > e)) 80 (-60 : K) 140 (by norm_num)
  simp only [dewPointFFromVaporPressure]
  constructor <;> linarith [hb.1, hb.2.1, hb.2.2.1]

/-- Claim C1: the dew-point operation is the midpoint of exactly 80
iterations of the bisection step on the fixed bracket `[-60, 140]`
(upper bound replaced by `mid` when `pd mid > e`, lower bound
otherwise), and for a target `e` outside `[pd(-60), pd(140)]` it
returns a value within `200 / 2 ^ 80` of the nearest bracket edge
instead of signalling an out-of-range error. -/
theorem dewPoint_is_fixed_80_iteration_bisection (e : ℚ) :
    dewPointFFromVaporPressure e =
      (((dpStep e)^[80] (-60, 140)).1 + ((dpStep e)^[80] (-60, 140)).2) / 2 ∧
    (e < pdValueInHg (-60) → |dewPointFFromVaporPressure e - (-60)| ≤ 200 / 2 ^ 80) ∧
    (pdValueInHg 140 < e → |dewPointFFromVaporPressure e - 140| ≤ 200 / 2 ^ 80) := by
  have h : (-60 : ℚ) ≤ 140 := by norm_num
  refine ⟨?_, ?_, ?_⟩
  · simp only [dewPointFFromVaporPressure]
    rw [bisect_eq_iterate e 80]
  · intro he
    have hb := bisect_bounds (fun m => decide (pdValueInHg m > e)) 80 (-60 : ℚ) 140 h
    have hpin := bisect_lo_pinned e he 80 140 (by norm_num)
    simp only [dewPointFFromVaporPressure]
    set s := bisect (fun m => decide (pdValueInHg m > e)) 80 ((-60 : ℚ), 140) with hs
    have h2 : s.2 = -60 + 200 / 2 ^ 80 := by
      have hw := hb.2.2.2
      rw [hpin] at hw
      have hnum : ((140 : ℚ) - -60) / 2 ^ 80 = 200 / 2 ^ 80 := by norm_num
      rw [hnum] at hw
      linarith
    rw [hpin, h2]
    have habs : ((-60 : ℚ) + (-60 + 200 / 2 ^ 80)) / 2 - -60 = 100 / 2 ^ 80 := by ring
    rw [habs, abs_of_nonneg (by positivity)]
    norm_num
  · intro he
    have hb := bisect_bounds (fun m => decide (pdValueInHg m > e)) 80 (-60 : ℚ) 140 h
    have hpin := bisect_hi_pinned e he 80 (-60) (by norm_num)
    simp only [dewPointFFromVaporPressure]
    set s := bisect (fun m => decide (pdValueInHg m > e)) 80 ((-60 : ℚ), 140) with hs
    have h1 : s.1 = 140 - 200 / 2 ^ 80 := by
      have hw := hb.2.2.2
      rw [hpin] at hw
      have hnum : ((140 : ℚ) - -60) / 2 ^ 80 = 200 / 2 ^ 80 := by norm_num
      rw [hnum] at hw
      linarith
    rw [hpin, h1]
    have habs : (140 - 200 / 2 ^ 80 + (140 : ℚ)) / 2 - 140 = -(100 / 2 ^ 80) := by ring
    rw [habs, abs_neg, abs_of_nonneg (by positivity)]
    norm_num

/-- Witness for C1 at the concrete out-of-range target `e = -3`. -/
theorem dewPoint_is_fixed_80_iteration_bisection_witness :
    (-3 : ℚ) < pdValueInHg (-60) ∧
    |dewPointFFromVaporPressure (-3 : ℚ) - -60| ≤ 200 / 2 ^ 80 :=
  ⟨by norm_num [pdValueInHg],
    (dewPoint_is_fixed_80_iteration_bisection (-3)).2.1 (by norm_num [pdValueInHg])⟩

/-- Claim C2: the saturation-vapor-pressure operation is exactly the
cubic with the four literal coefficients of the source, here spelled as
exact rationals. -/
theorem pd_polynomial_exact_coefficients (T : ℚ) :
    pdValueInHg T =
      (2923426 / 10 ^ 12) * T ^ 3 - (2235652 / 10 ^ 10) * T ^ 2 +
        (1366344 / 10 ^ 8) * T - 126149 / 10 ^ 6 := by
  simp only [pdValueInHg]
  norm_num

/-- Claim C3: for any temperature strictly inside the bracket, pushing
it through the forward polynomial and then the bisection inverse
recovers it to within one millionth of a degree. -/
theorem dewPoint_pd_roundtrip (T : ℚ) (h1 : -60 < T) (h2 : T < 140) :
    |dewPointFFromVaporPressure (pdValueInHg T) - T| ≤ 1 / 1000000 :=
  dewPoint_roundtrip_core T h1 h2

/-- Witness for C3 at the concrete temperature `T = 32`. -/
theorem dewPoint_pd_roundtrip_witness :
    (-60 : ℚ) < 32 ∧ (32 : ℚ) < 140 ∧
    |dewPointFFromVaporPressure (pdValueInHg (32 : ℚ)) - 32| ≤ 1 / 1000000 :=
  ⟨by norm_num, by norm_num, dewPoint_pd_roundtrip 32 (by norm_num) (by norm_num)⟩

/-- Claim C7, counterexample: the polynomial at `tempF = 80` is not
close to the literal `0.525834` given in the specification; it is not
even within `1/10` of it. -/
theorem pd80_not_approx :
    ¬ |pdValueInHg (80 : ℚ) - 0.525834| ≤ 1 / 10 := by
  rw [abs_le, not_and_or]
  right
  rw [not_le]
  norm_num [pdValueInHg]

/-- Claim C7, amended: the exact value of the polynomial at
`tempF = 80` is `1.032903032` inHg. -/
theorem pd80_exact_value : pdValueInHg (80 : ℚ) = 1.032903032 := by
  norm_num [pdValueInHg]

/-- Claim C8: the cubic is strictly increasing on the whole line, not
just on `[-60, 140]`. -/
theorem pd_strictMono_global (T1 T2 : ℚ) (h : T1 < T2) :
    pdValueInHg T1 < pdValueInHg T2 :=
  pd_lt_pd T1 T2 h

/-- Witness for C8 at the concrete pair `0 < 1`. -/
theorem pd_strictMono_global_witness :
    (0 : ℚ) < 1 ∧ pdValueInHg (0 : ℚ) < pdValueInHg 1 :=
  ⟨by norm_num, pd_strictMono_global 0 1 (by norm_num)⟩

/-- Claim C9: for every JavaScript-number input, including the
non-finite special values, the dew-point inversion returns a finite
value lying in the closed bracket `[-60, 140]`. -/
theorem dewPoint_result_in_bracket (e : XR) :
    ∃ d : ℝ, JS.dewPointFFromVaporPressure e = XR.num d ∧ -60 ≤ d ∧ d ≤ 140 := by
  have hb := bisect_bounds (fun mid => XR.gtb (JS.pdValueInHg (XR.num mid)) e) 80
    (-60 : ℝ) 140 (by norm_num)
  exact ⟨_, rfl, by linarith [hb.1, hb.2.1, hb.2.2.1], by linarith [hb.1, hb.2.1, hb.2.2.1]⟩

/-- Claim C10: the output bundle carries the three input fields through
unchanged. -/
theorem compute_echoes_inputs (x : JS.Inputs) :
    (JS.computeRacingWeather x).tempF = x.tempF ∧
    (JS.computeRacingWeather x).humidityPct = x.humidityPct ∧
    (JS.computeRacingWeather x).absPressureInHg = x.absPressureInHg :=
  ⟨rfl, rfl, rfl⟩

/-- Claim C4, counterexample: at `tempF = 0` the polynomial value is
negative, so raising the humidity from 10 to 20 strictly lowers the
vapor pressure; the claimed strict increase fails. -/
theorem humidity_mono_fails_at_cold_temp :
    ¬ XR.Lt (JS.computeRacingWeather ⟨XR.num 0, XR.num 10, XR.num 29⟩).vaporPressureInHg
      (JS.computeRacingWeather ⟨XR.num 0, XR.num 20, XR.num 29⟩).vaporPressureInHg := by
  rw [computeX_vapor, computeX_vapor, XR.lt_num]
  norm_num [pdValueInHg]

/-- Claim C4, amended: when the saturation polynomial is positive at
`tempF`, the pressure is positive, and the pressure exceeds the larger
vapor pressure, raising the humidity strictly increases the vapor
pressure, the humidity grains and the `hf` sub-factor, and does not
decrease the dew point (the fixed-resolution bisection makes the
dew-point increase non-strict in general). -/
theorem humidity_mono_amended (t h1 h2 P : ℝ) (hh : h1 < h2) (hpd : 0 < pdValueInHg t)
    (hP : 0 < P) (he2 : pdValueInHg t * (h2 / 100) < P) :
    XR.Lt (JS.computeRacingWeather ⟨XR.num t, XR.num h1, XR.num P⟩).vaporPressureInHg
      (JS.computeRacingWeather ⟨XR.num t, XR.num h2, XR.num P⟩).vaporPressureInHg ∧
    XR.Le (JS.computeRacingWeather ⟨XR.num t, XR.num h1, XR.num P⟩).dewPointF
      (JS.computeRacingWeather ⟨XR.num t, XR.num h2, XR.num P⟩).dewPointF ∧
    XR.Lt (JS.computeRacingWeather ⟨XR.num t, XR.num h1, XR.num P⟩).humidityGrains
      (JS.computeRacingWeather ⟨XR.num t, XR.num h2, XR.num P⟩).humidityGrains ∧
    XR.Lt (JS.computeRacingWeather ⟨XR.num t, XR.num h1, XR.num P⟩).hf
      (JS.computeRacingWeather ⟨XR.num t, XR.num h2, XR.num P⟩).hf := by
  have he : pdValueInHg t * (h1 / 100) < pdValueInHg t * (h2 / 100) := by
    nlinarith [mul_pos hpd (sub_pos.2 hh)]
  have hP1 : 0 < P - pdValueInHg t * (h1 / 100) := by linarith
  have hP2 : 0 < P - pdValueInHg t * (h2 / 100) := by linarith
  refine ⟨?_, ?_, ?_, ?_⟩
  · rw [computeX_vapor, computeX_vapor, XR.lt_num]
    exact he
  · rw [computeX_dew, computeX_dew, XR.le_num]
    exact dewPoint_mono _ _ he.le
  · rw [computeX_grains, computeX_grains, grainsX_num _ _ hP1.ne', grainsX_num _ _ hP2.ne',
      XR.lt_num]
    have hdiv : pdValueInHg t * (h1 / 100) / (P - pdValueInHg t * (h1 / 100)) <
        pdValueInHg t * (h2 / 100) / (P - pdValueInHg t * (h2 / 100)) := by
      rw [div_lt_div_iff₀ hP1 hP2]
      nlinarith [mul_lt_mul_of_pos_right he hP]
    simp only [humidityGrains]
    linarith [hdiv]
  · rw [computeX_hf, computeX_hf, XR.sub_num, XR.sub_num, XR.div_num _ _ hP1.ne',
      XR.div_num _ _ hP2.ne', XR.lt_num]
    rw [div_lt_div_iff₀ hP1 hP2]
    nlinarith [mul_lt_mul_of_pos_left he hP]

/-- Witness for the amended C4 at `tempF = 80`, humidities 40 and 50,
pressure 29. -/
theorem humidity_mono_amended_witness :
    XR.Lt (JS.computeRacingWeather ⟨XR.num 80, XR.num 40, XR.num 29⟩).vaporPressureInHg
      (JS.computeRacingWeather ⟨XR.num 80, XR.num 50, XR.num 29⟩).vaporPressureInHg ∧
    XR.Le (JS.computeRacingWeather ⟨XR.num 80, XR.num 40, XR.num 29⟩).dewPointF
      (JS.computeRacingWeather ⟨XR.num 80, XR.num 50, XR.num 29⟩).dewPointF ∧
    XR.Lt (JS.computeRacingWeather ⟨XR.num 80, XR.num 40, XR.num 29⟩).humidityGrains
      (JS.computeRacingWeather ⟨XR.num 80, XR.num 50, XR.num 29⟩).humidityGrains ∧
    XR.Lt (JS.computeRacingWeather ⟨XR.num 80, XR.num 40, XR.num 29⟩).hf
      (JS.computeRacingWeather ⟨XR.num 80, XR.num 50, XR.num 29⟩).hf :=
  humidity_mono_amended 80 40 50 29 (by norm_num) (by norm_num [pdValueInHg])
    (by norm_num) (by norm_num [pdValueInHg])

/-- Claim C5, counterexample: with `tempF = 0` and 100 percent humidity
the computed vapor pressure equals the (negative) pressure input
`-0.126149`, and the `hf` sub-factor is `-Infinity`, not `Infinity`. -/
theorem degenerate_pressure_counterexample :
    (JS.computeRacingWeather ⟨XR.num 0, XR.num 100, XR.num (-0.126149)⟩).hf = XR.ninf ∧
    XR.ninf ≠ XR.pinf := by
  constructor
  · rw [computeX_hf]
    have he : pdValueInHg (0 : ℝ) * (100 / 100) = -0.126149 := by norm_num [pdValueInHg]
    rw [he, XR.sub_num, sub_self]
    exact XR.div_zero_neg _ (by norm_num)
  · simp

/-- Claim C5, amended: when the pressure input equals the computed
vapor pressure, `humidityGrains` and `hf` are `Infinity` when that
common value is positive, `-Infinity` when it is negative, and `NaN`
when it is zero; the division by `P - e` is unguarded. -/
theorem degenerate_pressure_amended (t h P : ℝ) (hPe : P = pdValueInHg t * (h / 100)) :
    (0 < P →
      (JS.computeRacingWeather ⟨XR.num t, XR.num h, XR.num P⟩).humidityGrains = XR.pinf ∧
      (JS.computeRacingWeather ⟨XR.num t, XR.num h, XR.num P⟩).hf = XR.pinf) ∧
    (P < 0 →
      (JS.computeRacingWeather ⟨XR.num t, XR.num h, XR.num P⟩).humidityGrains = XR.ninf ∧
      (JS.computeRacingWeather ⟨XR.num t, XR.num h, XR.num P⟩).hf = XR.ninf) ∧
    (P = 0 →
      (JS.computeRacingWeather ⟨XR.num t, XR.num h, XR.num P⟩).humidityGrains = XR.nan ∧
      (JS.computeRacingWeather ⟨XR.num t, XR.num h, XR.num P⟩).hf = XR.nan) := by
  refine ⟨fun hp => ⟨?_, ?_⟩, fun hn => ⟨?_, ?_⟩, fun hz => ⟨?_, ?_⟩⟩
  · rw [computeX_grains, ← hPe]
    exact grainsX_degenerate_pos P hp
  · rw [computeX_hf, ← hPe, XR.sub_num, sub_self]
    exact XR.div_zero_pos P hp
  · rw [computeX_grains, ← hPe]
    exact grainsX_degenerate_neg P hn
  · rw [computeX_hf, ← hPe, XR.sub_num, sub_self]
    exact XR.div_zero_neg P hn
  · rw [computeX_grains, ← hPe, hz]
    exact grainsX_degenerate_zero
  · rw [computeX_hf, ← hPe, hz, XR.sub_num, sub_self]
    exact XR.div_zero_zero

/-- Witness for the amended C5 at `tempF = 80`, humidity 50, with the
pressure set equal to the computed (positive) vapor pressure. -/
theorem degenerate_pressure_amended_witness :
    (JS.computeRacingWeather ⟨XR.num 80, XR.num 50,
        XR.num (pdValueInHg (80 : ℝ) * (50 / 100))⟩).humidityGrains = XR.pinf ∧
    (JS.computeRacingWeather ⟨XR.num 80, XR.num 50,
        XR.num (pdValueInHg (80 : ℝ) * (50 / 100))⟩).hf = XR.pinf :=
  (degenerate_pressure_amended 80 50 _ rfl).1 (by norm_num [pdValueInHg])

/-- Claim C6: on finite inputs the pipeline always returns a full
bundle, never an error value: the polynomial value, vapor pressure and
dew point are always finite (the dew point clamped to the bracket), and
the degenerate conditions surface as non-finite numbers — a zero
denominator `P - e` makes `humidityGrains` and `hf` non-finite, and a
fractional power of a negative base makes `tf` equal to `NaN`. -/
theorem compute_total_degenerate_nonfinite (t h P : ℝ) :
    (JS.computeRacingWeather ⟨XR.num t, XR.num h, XR.num P⟩).pdValue =
      XR.num (pdValueInHg t) ∧
    (JS.computeRacingWeather ⟨XR.num t, XR.num h, XR.num P⟩).vaporPressureInHg =
      XR.num (pdValueInHg t * (h / 100)) ∧
    (∃ d : ℝ, (JS.computeRacingWeather ⟨XR.num t, XR.num h, XR.num P⟩).dewPointF = XR.num d ∧
      -60 ≤ d ∧ d ≤ 140) ∧
    (P = pdValueInHg t * (h / 100) →
      ¬ XR.isFinite (JS.computeRacingWeather ⟨XR.num t, XR.num h, XR.num P⟩).humidityGrains ∧
      ¬ XR.isFinite (JS.computeRacingWeather ⟨XR.num t, XR.num h, XR.num P⟩).hf) ∧
    ((459.7 + t) / 519.7 < 0 →
      (JS.computeRacingWeather ⟨XR.num t, XR.num h, XR.num P⟩).tf = XR.nan) := by
  refine ⟨computeX_pdValue t h P, computeX_vapor t h P, ?_, ?_, ?_⟩
  · rw [computeX_dew]
    exact ⟨_, rfl, (dewPoint_bracket _).1, (dewPoint_bracket _).2⟩
  · intro hPe
    rcases lt_trichotomy P 0 with hn | hz | hp
    · refine ⟨?_, ?_⟩
      · rw [computeX_grains, ← hPe, grainsX_degenerate_neg P hn]
        exact XR.not_isFinite_ninf
      · rw [computeX_hf, ← hPe, XR.sub_num, sub_self, XR.div_zero_neg P hn]
        exact XR.not_isFinite_ninf
    · refine ⟨?_, ?_⟩
      · rw [computeX_grains, ← hPe, hz, grainsX_degenerate_zero]
        exact XR.not_isFinite_nan
      · rw [computeX_hf, ← hPe, hz, XR.sub_num, sub_self, XR.div_zero_zero]
        exact XR.not_isFinite_nan
    · refine ⟨?_, ?_⟩
      · rw [computeX_grains, ← hPe, grainsX_degenerate_pos P hp]
        exact XR.not_isFinite_pinf
      · rw [computeX_hf, ← hPe, XR.sub_num, sub_self, XR.div_zero_pos P hp]
        exact XR.not_isFinite_pinf
  · intro hb
    rw [computeX_tf]
    exact XR.powPos_num_neg _ _ hb

/-- Witness for C6 at a degenerate input that exercises both the zero
denominator and the negative power base. -/
theorem compute_total_degenerate_nonfinite_witness :
    ¬ XR.isFinite (JS.computeRacingWeather ⟨XR.num (-500), XR.num 100,
        XR.num (pdValueInHg (-500 : ℝ) * (100 / 100))⟩).humidityGrains ∧
    (JS.computeRacingWeather ⟨XR.num (-500), XR.num 100,
        XR.num (pdValueInHg (-500 : ℝ) * (100 / 100))⟩).tf = XR.nan :=
  ⟨((compute_total_degenerate_nonfinite (-500) 100 _).2.2.2.1 rfl).1,
    (compute_total_degenerate_nonfinite (-500) 100 _).2.2.2.2 (by norm_num)⟩
